import Mathlib

/-!
# Verification of the PER-HIL2 engine core

Shallow embedding of the core data model and operations of the HIL2
test engine (wire codec, incremental serial parser, mux programming,
name resolution, net-map loading, calibration conversions, facade
shutdown), together with theorems settling the specification claims.

Opcode constants (from `commands.py`):
`READ_ID=0, WRITE_GPIO=1, HIZ_GPIO=2, READ_GPIO=3, WRITE_DAC=4,
HIZ_DAC=5, READ_ADC=6, WRITE_POT=7, SEND_CAN=8, RECV_CAN=9, ERROR=10`.
In the definitions below these appear as numeric literals to keep the
pattern matches direct; each use site is commented with the opcode name.
-/

namespace Hil2

/-- The error taxonomy of `hil_errors.py`, as a closed inductive, plus
the Python builtin `AttributeError`: `BoardNet.__eq__`
(`net_map.py` 24-25) reads `other.board` / `other.net`, attributes that
do not exist (the fields are `_board` / `_net`), so whenever a dict
operation actually invokes it, `AttributeError` escapes. -/
inductive HilError where
  | configurationError (msg : String)
  | connectionError (msg : String)
  | serialError (msg : String)
  | engineError (msg : String)
  | rangeError (msg : String)
  | netMapParseError (msg : String)
  | valueError (msg : String)
  | pyAttributeError (msg : String)
  deriving DecidableEq, Repr

/-- `SERIAL_RESPONSES = [READ_ID, READ_GPIO, READ_ADC, RECV_CAN, ERROR]`
(`commands.py` line 33). -/
def SERIAL_RESPONSES : List Nat := [0, 3, 6, 9, 10]

/-- One observable output of the incremental parser: either a synchronous
response recorded into `parsed_readings` under its opcode, or a raw CAN
frame appended to `parsed_can_messages` for its bus. -/
inductive Event where
  | resp (opcode : Nat) (bytes : List Nat)
  | canFrame (bus : Nat) (bytes : List Nat)
  deriving DecidableEq, Repr

/-- Shallow embedding of `commands.parse_readings` (`commands.py` 271-327).
The Python function mutates two dictionaries; here the single store
mutation a successful parse performs is returned as an `Event`.
Return value mirrors the source: a progress flag and the remaining
unparsed bytes; the two `raise hil_errors.SerialError` sites become
`Except.error`.  The guarded `match` cases of the source are translated
in the same order; since every data case is guarded by a distinct
leading opcode, dispatching on the first byte is equivalent. -/
def parseReadings (readings : List Nat) :
    Except HilError (Bool × List Nat × Option Event) :=
  match readings with
  | [] => .ok (false, [], none)
  | first :: tail =>
    if first = 0 then          -- READ_ID
      match tail with
      | value :: rest => .ok (true, rest, some (Event.resp 0 [value]))
      | [] => .ok (false, first :: tail, none)
    else if first = 3 then     -- READ_GPIO
      match tail with
      | value :: rest => .ok (true, rest, some (Event.resp 3 [value]))
      | [] => .ok (false, first :: tail, none)
    else if first = 6 then     -- READ_ADC
      match tail with
      | hi :: lo :: rest => .ok (true, rest, some (Event.resp 6 [hi, lo]))
      | _ => .ok (false, first :: tail, none)
    else if first = 9 then     -- RECV_CAN
      match tail with
      | bus :: s3 :: s2 :: s1 :: s0 :: len :: rest =>
        if len ≤ rest.length then
          .ok (true, rest.drop len,
            some (Event.canFrame bus ([bus, s3, s2, s1, s0, len] ++ rest.take len)))
        else .ok (false, first :: tail, none)
      | _ => .ok (false, first :: tail, none)
    else if first = 10 then    -- ERROR
      match tail with
      | _ :: _ => .error (HilError.serialError "HIL reported error for command")
      | [] => .ok (false, first :: tail, none)
    else
      -- `case [first, *rest] if first not in SERIAL_RESPONSES`
      .error (HilError.serialError "Unexpected response")

/-- Shallow embedding of `ThreadedSerial._process_readings`
(`serial_helper.py` 127-136): repeatedly call `parse_readings` on the
buffer while it reports progress, threading the buffer through and
collecting the events it records.  The Python `while` loop terminates
because every progress step consumes at least one byte, so a fuel of
`readings.length + 1` can never be exhausted (the wrapper
`processReadings` below supplies exactly that). -/
def processReadingsFuel :
    Nat → List Nat → List Event → Except HilError (List Nat × List Event)
  | 0, readings, acc => .ok (readings, acc)
  | fuel + 1, readings, acc =>
    match parseReadings readings with
    | .error e => .error e
    | .ok (false, rem, _) => .ok (rem, acc)
    | .ok (true, rem, ev) => processReadingsFuel fuel rem (acc ++ ev.toList)

/-- `ThreadedSerial._process_readings`: drain the buffer of every
complete frame, returning the remaining bytes and the events recorded. -/
def processReadings (readings : List Nat) (acc : List Event) :
    Except HilError (List Nat × List Event) :=
  processReadingsFuel (readings.length + 1) readings acc

/-- One reader-loop iteration of `ThreadedSerial.run`
(`serial_helper.py` 197-209) at chunk granularity: append the newly
read bytes to the buffer and process. -/
def feedChunk (st : List Nat × List Event) (chunk : List Nat) :
    Except HilError (List Nat × List Event) :=
  processReadings (st.1 ++ chunk) st.2

/-- Feed a sequence of byte chunks through the reader loop. -/
def feedChunks :
    List (List Nat) → List Nat × List Event →
      Except HilError (List Nat × List Event)
  | [], st => .ok st
  | c :: cs, st =>
    match feedChunk st c with
    | .error e => .error e
    | .ok st' => feedChunks cs st'

/-- The valid inbound data frames of spec section 4.1 that the steady-state
parser consumes and records: `READ_ID` response `[0, id]` (past
discovery, no preamble), `READ_GPIO` response `[3, v]`, `READ_ADC`
response `[6, hi, lo]`, and the asynchronous `RECV_CAN`
`[9, bus, id3, id2, id1, id0, len, data[0..len]]`.  (An `ERROR` frame
aborts the session with `SerialError` and records nothing, so it
produces no output and is not part of a valid recorded stream.) -/
inductive Frame where
  | readId (v : Nat)
  | readGpioResp (v : Nat)
  | readAdcResp (hi lo : Nat)
  | recvCan (bus s3 s2 s1 s0 : Nat) (data : List Nat)
  deriving DecidableEq, Repr

/-- Wire bytes of an inbound frame (spec section 4.1, inbound frames). -/
def Frame.serialize : Frame → List Nat
  | .readId v => [0, v]
  | .readGpioResp v => [3, v]
  | .readAdcResp hi lo => [6, hi, lo]
  | .recvCan bus s3 s2 s1 s0 data =>
    [9, bus, s3, s2, s1, s0, data.length] ++ data

/-- The store mutation the parser performs for a complete frame:
responses overwrite `parsed_readings[opcode]`, CAN frames append
`[bus, id3, id2, id1, id0, len, *data]` to `parsed_can_messages[bus]`
(`commands.py` 294-319). -/
def Frame.toEvent : Frame → Event
  | .readId v => .resp 0 [v]
  | .readGpioResp v => .resp 3 [v]
  | .readAdcResp hi lo => .resp 6 [hi, lo]
  | .recvCan bus s3 s2 s1 s0 data =>
    .canFrame bus ([bus, s3, s2, s1, s0, data.length] ++ data)

/-- Concatenated wire bytes of a frame sequence. -/
def framesBytes (fs : List Frame) : List Nat :=
  (fs.map Frame.serialize).flatten

/-- Shallow embedding of `commands.send_can` (`commands.py` 203-236):
the bytes written to the serial link for one `SEND_CAN` command. -/
def sendCanBytes (bus signal : Nat) (data : List Nat) : List Nat :=
  let signal_3 := (signal >>> 24) &&& 0xFF
  let signal_2 := (signal >>> 16) &&& 0xFF
  let signal_1 := (signal >>> 8) &&& 0xFF
  let signal_0 := signal &&& 0xFF
  [8, bus, signal_3, signal_2, signal_1, signal_0, data.length]
    ++ data ++ List.replicate (8 - data.length) 0

/-- Shallow embedding of the id/data extraction of
`parse_can_messages.decode` (`commands.py` 251-261) on a stored CAN
record `[bus, s3, s2, s1, s0, len, *data]`: the frame id is rebuilt
big-endian and masked to 29 bits, the data is `values[6 : 6 + len]`. -/
def decodeCanRecord (values : List Nat) : Nat × List Nat :=
  (((values.getD 1 0 <<< 24) ||| (values.getD 2 0 <<< 16)
      ||| (values.getD 3 0 <<< 8) ||| values.getD 4 0) &&& 0x1FFFFFFF,
   (values.drop 6).take (values.getD 5 0))

/-- A strictly incomplete fragment of some inbound frame: the shape of
the parser's leftover buffer between reader-loop iterations. -/
def IsFragment (p : List Nat) : Prop :=
  ∃ f : Frame, p <+: f.serialize ∧ p ≠ f.serialize

/-- `commands.write_gpio` (`commands.py` 85-96): the wire bytes of one
`WRITE_GPIO` command, `[WRITE_GPIO, pin, int(value)]`. -/
def writeGpioBytes (pin : Nat) (value : Bool) : List Nat :=
  [1, pin, if value then 1 else 0]

/-- Truthiness of the Python expression `select & (1 << i)` for an
arbitrary-precision integer `select` (two's complement semantics for
negative values): bit `i` of `select`. -/
def pySelectBit (select : Int) (i : Nat) : Bool :=
  match select with
  | .ofNat n => n &&& (1 <<< i) != 0
  | .negSucc n => !(n.testBit i)

/-- Configuration of one port (`test_device.py` `Port`). -/
structure Port where
  name : List Char
  port : Nat
  mode : String
  deriving DecidableEq, Repr

/-- Configuration of one multiplexer (`test_device.py` `Mux`). -/
structure Mux where
  name : List Char
  mode : String
  select_ports : List Nat
  port : Nat
  deriving DecidableEq, Repr

/-- A selected mux line (`test_device.py` `MuxSelect`). -/
structure MuxSelect where
  mux : Mux
  select : Int
  deriving DecidableEq, Repr

/-- `TestDevice._select_mux` (`test_device.py` 345-353): one
`WRITE_GPIO` per select port, in declared order, whose level is the
truthiness of `select & (1 << i)`. -/
def selectMuxCommands (m : Mux) (select : Int) : List (List Nat) :=
  m.select_ports.enum.map fun ip => writeGpioBytes ip.2 (pySelectBit select ip.1)

/-- The mux branch of `TestDevice.do_action` for `SetDo`
(`test_device.py` 539-543): program the select lines, then drive the
mux data pin. -/
def muxSetDoTrace (m : Mux) (select : Int) (value : Bool) : List (List Nat) :=
  selectMuxCommands m select ++ [writeGpioBytes m.port value]

/-- Python `name.rsplit("_", 1)` restricted to the use in
`Mux.select_from_name`: split at the last underscore; `none` when the
name has no underscore (Python returns a 1-element list and the caller
bails out on `len < 2`). -/
def rsplitLastUnd : List Char → Option (List Char × List Char)
  | [] => none
  | c :: cs =>
    match rsplitLastUnd cs with
    | some (pre, suf) => some (c :: pre, suf)
    | none => if c = '_' then some ([], cs) else none

/-- Accumulator pass over decimal digits; `none` on a non-digit. -/
def decDigitsAux : List Char → Nat → Option Nat
  | [], acc => some acc
  | c :: cs, acc =>
    if c.isDigit then decDigitsAux cs (acc * 10 + (c.toNat - 48)) else none

/-- Models Python `int(str)` on the mux-name suffix: an optional sign
followed by one or more decimal digits; `none` models the `ValueError`
path.  (Python `int` additionally strips whitespace and accepts
underscore digit separators; such suffixes play no role in the claims.) -/
def pyInt (s : List Char) : Option Int :=
  match s with
  | [] => none
  | '-' :: rest =>
    match rest with
    | [] => none
    | _ => (decDigitsAux rest 0).map fun n => -(n : Int)
  | '+' :: rest =>
    match rest with
    | [] => none
    | _ => (decDigitsAux rest 0).map fun n => (n : Int)
  | _ => (decDigitsAux s 0).map fun n => (n : Int)

/-- `Mux.select_from_name` (`test_device.py` 183-199): split the port
name at its last underscore; if the prefix is this mux's name and the
suffix parses as an integer, yield `MuxSelect(self, int(suffix))`.
No range check is performed on the parsed integer. -/
def Mux.selectFromName (m : Mux) (nm : List Char) : Option MuxSelect :=
  match rsplitLastUnd nm with
  | none => none
  | some (pre, suf) =>
    if pre = m.name then
      match pyInt suf with
      | some n => some ⟨m, n⟩
      | none => none
    else none

/-- The static port/mux tables of one `TestDevice` as far as `do_action`
resolution is concerned. -/
structure TestDevice where
  ports : List Port
  muxs : List Mux
  deriving DecidableEq, Repr

/-- `self._ports.get(port, None)`: the port dict is keyed by name
(`TestDevice.from_json`), so lookup is by-name search. -/
def TestDevice.lookupPort (dev : TestDevice) (nm : List Char) : Option Port :=
  dev.ports.find? fun p => p.name = nm

/-- `next((val for m in self._muxs.values() if (val :=
m.select_from_name(port)) is not None), None)` (`test_device.py`
524-531): the first mux whose name matches the port-name prefix. -/
def TestDevice.firstMuxSelect (dev : TestDevice) (nm : List Char) : Option MuxSelect :=
  dev.muxs.findSome? fun m => m.selectFromName nm

/-- The `SetDo` rows of the `TestDevice.do_action` decision table
(`test_device.py` 534-543, 603-609), as the trace of wire commands:
the direct-port case is tried first (guard: port exists and its mode is
`DO`), then the mux-select case (guard: a mux matches and its mode is
`DO`), otherwise `EngineError`. -/
def TestDevice.doSetDo (dev : TestDevice) (nm : List Char) (value : Bool) :
    Except HilError (List (List Nat)) :=
  match dev.lookupPort nm, dev.firstMuxSelect nm with
  | some p, some ms =>
    if p.mode = "DO" then .ok [writeGpioBytes p.port value]
    else if ms.mux.mode = "DO" then .ok (muxSetDoTrace ms.mux ms.select value)
    else .error (HilError.engineError "Action not supported")
  | some p, none =>
    if p.mode = "DO" then .ok [writeGpioBytes p.port value]
    else .error (HilError.engineError "Action not supported")
  | none, some ms =>
    if ms.mux.mode = "DO" then .ok (muxSetDoTrace ms.mux ms.select value)
    else .error (HilError.engineError "Action not supported")
  | none, none => .error (HilError.engineError "Action not supported")

/-- `PotConfig` (`test_device.py` 117-130): potentiometer calibration. -/
structure PotConfig where
  bit_resolution : Nat
  reference_ohms : Rat
  wiper_ohms : Rat
  deriving DecidableEq, Repr

/-- `PotConfig.ohms_to_raw` (`test_device.py` 132-142), translated
literally: note the source computes `steps = self.bit_resolution**2 - 1`
(the bit resolution *squared*), not `2**self.bit_resolution - 1`.
Python `int()` truncates toward zero; on the in-range inputs of
interest the quotient is non-negative, where truncation is the floor. -/
def PotConfig.ohms_to_raw (cfg : PotConfig) (value : Rat) : Except HilError Int :=
  if value < cfg.wiper_ohms ∨ value > cfg.reference_ohms + cfg.wiper_ohms then
    .error (HilError.rangeError "POT value out of range")
  else
    let steps : Nat := cfg.bit_resolution ^ 2 - 1
    .ok ⌊((steps : Rat) * (value - cfg.wiper_ohms)) / cfg.reference_ohms⌋

/-- `AdcConfig` (`test_device.py` 18-47): ADC calibration (reference
voltages as exact rationals). -/
structure AdcConfig where
  bit_resolution : Nat
  adc_reference_v : Rat
  five_v_reference_v : Option Rat
  twenty_four_v_reference_v : Option Rat
  deriving DecidableEq, Repr

/-- `AdcConfig.raw_to_v` (`test_device.py` 49-58): `RangeError` outside
`[0, 2^b - 1]`, otherwise `raw / (2^b - 1) * adc_reference_v`. -/
def AdcConfig.raw_to_v (cfg : AdcConfig) (raw_value : Int) : Except HilError Rat :=
  if raw_value < 0 ∨ raw_value > 2 ^ cfg.bit_resolution - 1 then
    .error (HilError.rangeError "ADC raw value out of range")
  else
    .ok (((raw_value : Rat) / ((2 : Rat) ^ cfg.bit_resolution - 1)) * cfg.adc_reference_v)

/-- `commands.read_adc` response combination (`commands.py` 180-182):
the device answers two bytes, combined as `(hi << 8) | lo`. -/
def readAdcValue (hi lo : Nat) : Nat := (hi <<< 8) ||| lo

/-- The `mode == "AI"` arm of `TestDevice._get_ai` (`test_device.py`
428-450) as a function of the two response bytes: read the 16-bit raw
value off the wire and convert it with `raw_to_v`. -/
def getAiVolts (cfg : AdcConfig) (hi lo : Nat) : Except HilError Rat :=
  cfg.raw_to_v (readAdcValue hi lo : Nat)

/-- A row of the net-map CSV as seen by `NetMap.from_csv`
(`net_map.py` 71-100): either the four required columns, or a malformed
row (the `case _:` that raises `NetMapParseError`). -/
inductive NetMapRow where
  | ok (board net component : String) (designator : Int)
  | malformed
  deriving DecidableEq, Repr

/-- `NetMapEntry` (`net_map.py` 32-45). -/
structure NetMapEntry where
  board : String
  net : String
  component : String
  designator : Int
  deriving DecidableEq, Repr

/-- Python dict assignment `entries[board_net] = entry`
(`net_map.py` 97) with `BoardNet` keys as they actually behave:
`__hash__` is by value, so inserting a key *equal* to a stored one puts
them in the same bucket and the bucket scan calls `BoardNet.__eq__`
(identity is checked first, but every key here is freshly constructed),
which reads the nonexistent `other.board` and raises `AttributeError`.
A key equal to no stored key never triggers `__eq__` and is appended.
(Hash collisions between *unequal* keys depend on the interpreter's
randomized string hashing and are not modelled.) -/
def dictInsertBroken (es : List ((String × String) × NetMapEntry))
    (k : String × String) (v : NetMapEntry) :
    Except HilError (List ((String × String) × NetMapEntry)) :=
  if (es.map fun e => e.1).contains k then
    .error (HilError.pyAttributeError "BoardNet object has no attribute board")
  else .ok (es ++ [(k, v)])

/-- The row loop of `NetMap.from_csv` (`net_map.py` 79-100): well-formed
rows are inserted via the broken dict assignment (a duplicate
`(Board, Net)` key raises `AttributeError`); a malformed row raises
`NetMapParseError`. -/
def netMapFromRows :
    List NetMapRow → List ((String × String) × NetMapEntry) →
      Except HilError (List ((String × String) × NetMapEntry))
  | [], entries => .ok entries
  | .malformed :: _, _ => .error (HilError.netMapParseError "Invalid net map row")
  | .ok b n c d :: rows, entries =>
    match dictInsertBroken entries (b, n) ⟨b, n, c, d⟩ with
    | .error e => .error e
    | .ok entries' => netMapFromRows rows entries'

/-- `NetMap.from_csv` starting from the empty dict. -/
def NetMap.from_csv (rows : List NetMapRow) :
    Except HilError (List ((String × String) × NetMapEntry)) :=
  netMapFromRows rows []

/-- `NetMap.get_entry` (`net_map.py` 57-69) as it actually executes:
the membership test `board_net in self._entries` hashes the freshly
constructed `BoardNet(board, net)`; when an equal key is stored, the
bucket scan invokes the broken `BoardNet.__eq__` and raises
`AttributeError`; when no equal key is stored the test is `False` and
`ConnectionError` is raised.  The method can therefore never return an
entry. -/
def netMapGetEntry (es : List ((String × String) × NetMapEntry))
    (board net : String) : Except HilError NetMapEntry :=
  if (es.map fun e => e.1).contains (board, net) then
    .error (HilError.pyAttributeError "BoardNet object has no attribute board")
  else .error (HilError.connectionError "No net map entry found")

/-- The registered shutdown components of the facade at `Hil2.close`
(`hil2.py` 65-71), abstracted by the outcome of each `shutdown()` call:
`.ok pin` means the component's HiZ succeeded releasing `pin`,
`.error e` means the HiZ raised.  The source loop
`for comp in self._shutdown_components.values(): comp.shutdown()` has
no `try`/`except`, so a raising component aborts the loop; the pins of
the components actually released are collected. -/
def closeComponents : List (Except String Nat) → Except String (List Nat)
  | [] => .ok []
  | c :: cs =>
    match c with
    | .error e => .error e
    | .ok pin => (closeComponents cs).map fun pins => pin :: pins

/-- `HilDutCon` (`dut_cons.py` 7-16). -/
structure HilDutCon where
  device : String
  port : String
  deriving DecidableEq, Repr

/-- `DutCon` (`dut_cons.py` 35-44). -/
structure DutCon where
  connector : String
  pin : Int
  deriving DecidableEq, Repr

/-- `DutBoardCons.get_hil_device_connection` (`dut_cons.py` 92-106) for
a freshly constructed lookup key: the harness dict is keyed by `DutCon`
objects, and `DutCon` defines neither `__eq__` nor `__hash__`, so
`dut_con in self._harness_connections` compares by object identity.
The resolver always passes a `DutCon` it just built from the net-map
entry (`hil2.py` 97-99), which is identical to no stored key, so the
membership test is `False` and `ConnectionError` is raised for every
harness table — the stored connections are unreachable on this path. -/
def DutBoardCons.getHilDeviceConnection (cons : List (DutCon × HilDutCon))
    (dut : DutCon) : Except HilError HilDutCon :=
  .error (HilError.connectionError "No HIL connection found for DUT connection")

/-- `DutCons.get_hil_device_connection` (`dut_cons.py` 153-165):
two-level harness lookup, `ConnectionError` on a missing board. -/
def DutCons.getHilDeviceConnection
    (dcs : List (String × List (DutCon × HilDutCon))) (board : String)
    (dut : DutCon) : Except HilError HilDutCon :=
  match dcs.find? fun bc => bc.1 = board with
  | some bc => DutBoardCons.getHilDeviceConnection bc.2 dut
  | none => .error (HilError.connectionError "No HIL connection found for DUT board")

/-- The fixed configuration `Hil2._map_to_hil_device_con` closes over:
managed device names, the optional net map, and the harness config. -/
structure Hil2Cfg where
  testDevices : List String
  netMap : Option (List ((String × String) × NetMapEntry))
  dutCons : List (String × List (DutCon × HilDutCon))

/-- `TestDeviceManager.maybe_hil_con_from_net` (`test_device.py`
694-707): `HilDutCon(board, net)` when `board` names a managed device. -/
def maybeHilConFromNet (cfg : Hil2Cfg) (board net : String) : Option HilDutCon :=
  if board ∈ cfg.testDevices then some ⟨board, net⟩ else none

/-- The net-map arm of `Hil2._map_to_hil_device_con` (`hil2.py` 95-100):
net-map lookup, then harness lookup from the entry's
`(component, designator)`. -/
def netPipeline (cfg : Hil2Cfg) (nm : List ((String × String) × NetMapEntry))
    (board net : String) : Except HilError HilDutCon :=
  match netMapGetEntry nm board net with
  | .error e => .error e
  | .ok entry =>
    DutCons.getHilDeviceConnection cfg.dutCons board ⟨entry.component, entry.designator⟩

/-- `Hil2._map_to_hil_device_con` (`hil2.py` 74-109): the `match` on
`(self._maybe_net_map, maybe_hil_dut_con)`, cases in source order. -/
def mapToHilDeviceCon (cfg : Hil2Cfg) (board net : String) :
    Except HilError HilDutCon :=
  match cfg.netMap, maybeHilConFromNet cfg board net with
  | none, none => .error (HilError.connectionError "No HIL device connection found")
  | some nm, none => netPipeline cfg nm board net
  | none, some hilDutCon => .ok hilDutCon
  | some _, some _ => .error (HilError.connectionError "ambiguous")


end Hil2

namespace Hil2

/-- Every inbound frame serializes to at least two bytes. -/
lemma Frame.two_le_serialize_length (f : Frame) : 2 ≤ f.serialize.length := by
  cases f <;> simp [Frame.serialize]

lemma isFragment_nil : IsFragment [] :=
  ⟨Frame.readId 0, ⟨[0, 0], rfl⟩, by simp [Frame.serialize]⟩

/-- A complete inbound frame at the head of the buffer is parsed in one
step: progress is reported, exactly the frame's bytes are consumed, and
the frame's store mutation is the event produced. -/
lemma parseReadings_frame (f : Frame) (rest : List Nat) :
    parseReadings (f.serialize ++ rest) = .ok (true, rest, some f.toEvent) := by
  cases f with
  | readId v => rfl
  | readGpioResp v => rfl
  | readAdcResp hi lo => rfl
  | recvCan bus s3 s2 s1 s0 data =>
    have hle : data.length ≤ (data ++ rest).length := by simp
    show parseReadings
        (9 :: bus :: s3 :: s2 :: s1 :: s0 :: data.length :: (data ++ rest)) = _
    simp [parseReadings, hle, Frame.toEvent, List.take_left, List.drop_left]

/-- A strictly incomplete fragment makes no progress and is preserved
unconsumed (the `case _:` fall-through of `parse_readings`). -/
lemma parseReadings_fragment (p : List Nat) (hp : IsFragment p) :
    parseReadings p = .ok (false, p, none) := by
  obtain ⟨f, ⟨t, ht⟩, hne⟩ := hp
  cases f with
  | readId v =>
    rcases p with _ | ⟨a, _ | ⟨b, p'⟩⟩
    · rfl
    · simp only [Frame.serialize, List.cons_append, List.nil_append,
        List.cons.injEq] at ht
      obtain ⟨rfl, -⟩ := ht
      rfl
    · exfalso
      simp only [Frame.serialize, List.cons_append, List.cons.injEq,
        List.append_eq_nil] at ht
      obtain ⟨rfl, rfl, rfl, rfl⟩ := ht
      exact hne rfl
  | readGpioResp v =>
    rcases p with _ | ⟨a, _ | ⟨b, p'⟩⟩
    · rfl
    · simp only [Frame.serialize, List.cons_append, List.nil_append,
        List.cons.injEq] at ht
      obtain ⟨rfl, -⟩ := ht
      rfl
    · exfalso
      simp only [Frame.serialize, List.cons_append, List.cons.injEq,
        List.append_eq_nil] at ht
      obtain ⟨rfl, rfl, rfl, rfl⟩ := ht
      exact hne rfl
  | readAdcResp hi lo =>
    rcases p with _ | ⟨a, _ | ⟨b, _ | ⟨c, p'⟩⟩⟩
    · rfl
    · simp only [Frame.serialize, List.cons_append, List.nil_append,
        List.cons.injEq] at ht
      obtain ⟨rfl, -⟩ := ht
      rfl
    · simp only [Frame.serialize, List.cons_append, List.nil_append,
        List.cons.injEq] at ht
      obtain ⟨rfl, rfl, -⟩ := ht
      rfl
    · exfalso
      simp only [Frame.serialize, List.cons_append, List.cons.injEq,
        List.append_eq_nil] at ht
      obtain ⟨rfl, rfl, rfl, rfl, rfl⟩ := ht
      exact hne rfl
  | recvCan bus s3 s2 s1 s0 data =>
    rcases p with _ | ⟨a1, _ | ⟨a2, _ | ⟨a3, _ | ⟨a4, _ | ⟨a5, _ | ⟨a6, _ | ⟨a7, p'⟩⟩⟩⟩⟩⟩⟩
    · rfl
    · simp only [Frame.serialize, List.cons_append, List.nil_append,
        List.cons.injEq] at ht
      obtain ⟨rfl, -⟩ := ht
      rfl
    · simp only [Frame.serialize, List.cons_append, List.nil_append,
        List.cons.injEq] at ht
      obtain ⟨rfl, rfl, -⟩ := ht
      rfl
    · simp only [Frame.serialize, List.cons_append, List.nil_append,
        List.cons.injEq] at ht
      obtain ⟨rfl, rfl, rfl, -⟩ := ht
      rfl
    · simp only [Frame.serialize, List.cons_append, List.nil_append,
        List.cons.injEq] at ht
      obtain ⟨rfl, rfl, rfl, rfl, -⟩ := ht
      rfl
    · simp only [Frame.serialize, List.cons_append, List.nil_append,
        List.cons.injEq] at ht
      obtain ⟨rfl, rfl, rfl, rfl, rfl, -⟩ := ht
      rfl
    · simp only [Frame.serialize, List.cons_append, List.nil_append,
        List.cons.injEq] at ht
      obtain ⟨rfl, rfl, rfl, rfl, rfl, rfl, -⟩ := ht
      rfl
    · simp only [Frame.serialize, List.cons_append, List.nil_append,
        List.cons.injEq] at ht
      obtain ⟨rfl, rfl, rfl, rfl, rfl, rfl, hL, hrest⟩ := ht
      subst hL
      rcases t with _ | ⟨x, t'⟩
      · exfalso
        rw [List.append_nil] at hrest
        subst hrest
        exact hne rfl
      · have hlt : p'.length < data.length := by
          have hlen := congrArg List.length hrest
          simp at hlen
          omega
        have hguard : ¬ (data.length ≤ p'.length) := by omega
        simp [parseReadings, hguard]

/-- Central invariant of one `_process_readings` drain: if the buffer
`b` is a prefix (with continuation `t`) of a valid frame stream followed
by a strict fragment `pend`, then the drain consumes exactly the
complete frames contained in `b`, records their events in order, and
leaves the strict fragment of the next frame unconsumed. -/
lemma processFuel_spec (fs : List Frame) :
    ∀ (b t pend : List Nat) (acc : List Event) (fuel : Nat),
      IsFragment pend → b ++ t = framesBytes fs ++ pend → b.length + 1 ≤ fuel →
      ∃ fs₁ fs₂ p, fs = fs₁ ++ fs₂ ∧ b = framesBytes fs₁ ++ p ∧ IsFragment p ∧
        p ++ t = framesBytes fs₂ ++ pend ∧
        processReadingsFuel fuel b acc = .ok (p, acc ++ fs₁.map Frame.toEvent) := by
  induction fs with
  | nil =>
    intro b t pend acc fuel hpend hb hfuel
    have hb' : b ++ t = pend := by simpa [framesBytes] using hb
    have hfragb : IsFragment b := by
      obtain ⟨g, hgpre, hne⟩ := hpend
      have hbp : b <+: pend := ⟨t, hb'⟩
      refine ⟨g, hbp.trans hgpre, ?_⟩
      intro heq
      have h1 : pend.length < g.serialize.length := by
        rcases hgpre with ⟨u, hu⟩
        rcases u with _ | ⟨x, u'⟩
        · exact absurd (by simpa using hu) hne
        · have := congrArg List.length hu
          simp at this
          omega
      have h2 : b.length ≤ pend.length := hbp.length_le
      rw [heq] at h2
      have h3 : g.serialize.length ≤ pend.length := h2
      omega
    rcases fuel with _ | fuel'
    · omega
    · exact ⟨[], [], b, rfl, by simp [framesBytes], hfragb, by simpa [framesBytes],
        by simp [processReadingsFuel, parseReadings_fragment _ hfragb]⟩
  | cons f fs' ih =>
    intro b t pend acc fuel hpend hb hfuel
    have hb' : b ++ t = f.serialize ++ (framesBytes fs' ++ pend) := by
      simpa [framesBytes, List.append_assoc] using hb
    by_cases hc : f.serialize <+: b
    · -- the head frame is complete in the buffer: one parse step consumes it
      obtain ⟨b', rfl⟩ := hc
      have hbt : b' ++ t = framesBytes fs' ++ pend := by
        rw [List.append_assoc] at hb'
        exact List.append_cancel_left hb'
      rcases fuel with _ | fuel'
      · omega
      · have hlen2 := f.two_le_serialize_length
        have hfuel' : b'.length + 1 ≤ fuel' := by
          have hl : (f.serialize ++ b').length = f.serialize.length + b'.length := by
            simp
          omega
        obtain ⟨fs₁, fs₂, p, hfs, hb₁, hfrag, hpt, hrun⟩ :=
          ih b' t pend (acc ++ [f.toEvent]) fuel' hpend hbt hfuel'
        refine ⟨f :: fs₁, fs₂, p, by rw [hfs]; rfl, ?_, hfrag, hpt, ?_⟩
        · simp [framesBytes, hb₁, List.append_assoc]
        · rw [show processReadingsFuel (fuel' + 1) (f.serialize ++ b') acc
              = processReadingsFuel fuel' b' (acc ++ [f.toEvent]) by
            simp [processReadingsFuel, parseReadings_frame f b']]
          rw [hrun]
          simp
    · -- the head frame is incomplete: the whole buffer is a fragment
      have hpre1 : b <+: f.serialize ++ (framesBytes fs' ++ pend) := ⟨t, hb'⟩
      have hpre2 : f.serialize <+: f.serialize ++ (framesBytes fs' ++ pend) :=
        List.prefix_append _ _
      have hbf : b <+: f.serialize := by
        rcases List.prefix_or_prefix_of_prefix hpre1 hpre2 with h | h
        · exact h
        · exact absurd h hc
      have hne : b ≠ f.serialize := by
        intro h
        exact hc (h ▸ List.prefix_refl b)
      have hfragb : IsFragment b := ⟨f, hbf, hne⟩
      rcases fuel with _ | fuel'
      · omega
      · exact ⟨[], f :: fs', b, rfl, by simp [framesBytes], hfragb, hb,
          by simp [processReadingsFuel, parseReadings_fragment _ hfragb]⟩

/-- `processFuel_spec` instantiated at the fuel `_process_readings`
actually runs with. -/
lemma processReadings_spec (fs : List Frame) (b t pend : List Nat) (acc : List Event)
    (hpend : IsFragment pend) (hb : b ++ t = framesBytes fs ++ pend) :
    ∃ fs₁ fs₂ p, fs = fs₁ ++ fs₂ ∧ b = framesBytes fs₁ ++ p ∧ IsFragment p ∧
      p ++ t = framesBytes fs₂ ++ pend ∧
      processReadings b acc = .ok (p, acc ++ fs₁.map Frame.toEvent) :=
  processFuel_spec fs b t pend acc (b.length + 1) hpend hb le_rfl

/-- Reader-loop invariant across chunk boundaries: feeding the chunks
one call at a time produces the events of every frame completed so far,
in order, with the strict fragment of the next frame carried in the
buffer. -/
lemma feedChunks_spec (cs : List (List Nat)) :
    ∀ (fs : List Frame) (pend p : List Nat) (acc : List Event),
      IsFragment pend → IsFragment p →
      p ++ cs.flatten = framesBytes fs ++ pend →
      ∃ fsDone fsRem pFinal,
        fs = fsDone ++ fsRem ∧ IsFragment pFinal ∧
        pFinal = framesBytes fsRem ++ pend ∧
        feedChunks cs (p, acc) = .ok (pFinal, acc ++ fsDone.map Frame.toEvent) := by
  induction cs with
  | nil =>
    intro fs pend p acc hpend hp hstream
    exact ⟨[], fs, p, rfl, hp, by simpa using hstream, by simp [feedChunks]⟩
  | cons c cs' ih =>
    intro fs pend p acc hpend hp hstream
    have hb : (p ++ c) ++ cs'.flatten = framesBytes fs ++ pend := by
      simpa [List.append_assoc] using hstream
    obtain ⟨fs₁, fs₂, p₁, hfs, hb₁, hfrag₁, hpt, hrun⟩ :=
      processReadings_spec fs (p ++ c) cs'.flatten pend acc hpend hb
    obtain ⟨fsDone', fsRem, pFinal, hfs₂, hfragF, hpf, hrun'⟩ :=
      ih fs₂ pend p₁ (acc ++ fs₁.map Frame.toEvent) hpend hfrag₁ hpt
    refine ⟨fs₁ ++ fsDone', fsRem, pFinal, by rw [hfs, hfs₂, List.append_assoc],
      hfragF, hpf, ?_⟩
    have hstep : feedChunk (p, acc) c = .ok (p₁, acc ++ fs₁.map Frame.toEvent) := hrun
    rw [show feedChunks (c :: cs') (p, acc)
        = feedChunks cs' (p₁, acc ++ fs₁.map Frame.toEvent) by
      simp [feedChunks, hstep]]
    rw [hrun']
    simp

/-- Claim C5: a non-empty byte list whose leading byte is not one of
the response opcodes `{0, 3, 6, 9, 10}` makes `parse_readings` raise
`SerialError`; the byte is never silently skipped or consumed. -/
theorem parseReadings_desync (b : Nat) (rest : List Nat)
    (hb : b ∉ SERIAL_RESPONSES) :
    parseReadings (b :: rest) =
      .error (HilError.serialError "Unexpected response") := by
  simp only [SERIAL_RESPONSES, List.mem_cons, List.mem_singleton] at hb
  push_neg at hb
  obtain ⟨h0, h3, h6, h9, h10⟩ := hb
  simp [parseReadings, h0, h3, h6, h9, h10]

/-- Witness for C5 at the concrete leading byte `1` (`WRITE_GPIO`,
a command opcode, not a response opcode). -/
theorem parseReadings_desync_witness :
    (1 : Nat) ∉ SERIAL_RESPONSES ∧
      parseReadings [1, 42] =
        .error (HilError.serialError "Unexpected response") :=
  ⟨by decide, parseReadings_desync 1 [42] (by decide)⟩

/-- Claim C6: for any valid concatenation of inbound data frames,
possibly followed by a strict fragment `pend` of a further frame, split
at arbitrary byte boundaries into reader-loop calls, the produced
outputs (responses recorded in `parsed_readings` plus CAN frames
appended per bus) are exactly the input frames' store mutations, in
order, and the trailing partial frame is preserved unconsumed in the
buffer: nothing is lost, invented, or reordered. -/
theorem parser_stream_roundtrip (fs : List Frame) (g : Frame) (pend : List Nat)
    (hpre : pend <+: g.serialize) (hne : pend ≠ g.serialize)
    (cs : List (List Nat)) (hcs : cs.flatten = framesBytes fs ++ pend) :
    feedChunks cs ([], []) = .ok (pend, fs.map Frame.toEvent) := by
  have hpend : IsFragment pend := ⟨g, hpre, hne⟩
  obtain ⟨fsDone, fsRem, pFinal, hfs, hfragF, hpf, hrun⟩ :=
    feedChunks_spec cs fs pend [] [] hpend isFragment_nil (by simpa using hcs)
  rcases fsRem with _ | ⟨f, fsRem'⟩
  · rw [List.append_nil] at hfs
    simp only [framesBytes, List.map_nil, List.flatten_nil, List.nil_append] at hpf
    subst hfs
    subst hpf
    simpa using hrun
  · exfalso
    have h1 := parseReadings_fragment pFinal hfragF
    have h2 : parseReadings pFinal
        = .ok (true, framesBytes fsRem' ++ pend, some f.toEvent) := by
      rw [hpf]
      have : framesBytes (f :: fsRem') ++ pend
          = f.serialize ++ (framesBytes fsRem' ++ pend) := by
        simp [framesBytes, List.append_assoc]
      rw [this]
      exact parseReadings_frame f (framesBytes fsRem' ++ pend)
    rw [h1] at h2
    simp at h2

/-- Witness for C6: a `READ_ID` response and a two-byte `RECV_CAN`
frame, followed by the first byte of a `READ_ADC` response, split at
boundaries that cut through both frames. -/
theorem parser_stream_roundtrip_witness :
    ([6] <+: (Frame.readAdcResp 1 2).serialize) ∧
      ([6] ≠ (Frame.readAdcResp 1 2).serialize) ∧
      ([[0], [7, 9, 1], [0, 0, 1, 35, 2, 85], [102, 6]] : List (List Nat)).flatten
        = framesBytes [Frame.readId 7, Frame.recvCan 1 0 0 1 35 [85, 102]] ++ [6] ∧
      feedChunks [[0], [7, 9, 1], [0, 0, 1, 35, 2, 85], [102, 6]] ([], [])
        = .ok ([6], [Event.resp 0 [7], Event.canFrame 1 [1, 0, 0, 1, 35, 2, 85, 102]]) :=
  ⟨⟨[1, 2], rfl⟩, by simp [Frame.serialize], by decide,
    parser_stream_roundtrip
      [Frame.readId 7, Frame.recvCan 1 0 0 1 35 [85, 102]]
      (Frame.readAdcResp 1 2) [6] ⟨[1, 2], rfl⟩ (by simp [Frame.serialize])
      [[0], [7, 9, 1], [0, 0, 1, 35, 2, 85], [102, 6]] (by decide)⟩

/-- Counterexample to Claim C4 as stated: for id `2^29` the send path
emits `32` as the high id byte, while the big-endian encoding of the id
masked to 29 bits would have `0` there — `send_can` applies no 29-bit
mask. -/
theorem sendCan_mask_counterexample :
    sendCanBytes 0 (2 ^ 29) [] = [8, 0, 32, 0, 0, 0, 0, 0, 0, 0, 0, 0, 0, 0, 0] ∧
      ((2 ^ 29 &&& 0x1FFFFFFF) >>> 24) &&& 0xFF = 0 ∧ (32 : Nat) ≠ 0 := by
  decide

/-- Claim C4 amended: for data of length `n ≤ 8` and an id already in
the 29-bit range, `send_can` writes exactly the 15-byte frame
`[8, bus, id_b3, id_b2, id_b1, id_b0, n, data, zero padding]` with the
id bytes big-endian (for such ids the 29-bit mask is the identity);
ids of 29 bits or more are sent unmasked — the 29-bit mask is applied
only on the receive path, where `decode` masks the rebuilt id. -/
theorem sendCan_frame_layout (bus id : Nat) (data : List Nat)
    (hn : data.length ≤ 8) (hid : id < 2 ^ 29) :
    sendCanBytes bus id data
      = [8, bus, ((id &&& 0x1FFFFFFF) >>> 24) % 256,
         ((id &&& 0x1FFFFFFF) >>> 16) % 256,
         ((id &&& 0x1FFFFFFF) >>> 8) % 256, (id &&& 0x1FFFFFFF) % 256, data.length]
        ++ data ++ List.replicate (8 - data.length) 0
      ∧ (sendCanBytes bus id data).length = 15
      ∧ ∀ bus2 s3 s2 s1 s0 len rest2,
          (decodeCanRecord (bus2 :: s3 :: s2 :: s1 :: s0 :: len :: rest2)).1
            = ((s3 <<< 24) ||| (s2 <<< 16) ||| (s1 <<< 8) ||| s0) &&& 0x1FFFFFFF := by
  have hmask : id &&& 0x1FFFFFFF = id := by
    have h := Nat.and_pow_two_sub_one_eq_mod id 29
    norm_num at h
    rw [h]
    exact Nat.mod_eq_of_lt hid
  have h8 : ∀ x : Nat, x &&& 0xFF = x % 256 := fun x =>
    Nat.and_pow_two_sub_one_eq_mod x 8
  refine ⟨?_, ?_, ?_⟩
  · simp [sendCanBytes, hmask, h8]
  · simp [sendCanBytes]
    omega
  · intro bus2 s3 s2 s1 s0 len rest2
    rfl

/-- Witness for C4 (amended) at the scenario-S4 inputs: bus 1, id
`0x123`, three data bytes. -/
theorem sendCan_frame_layout_witness :
    ([170, 187, 204] : List Nat).length ≤ 8 ∧ (0x123 : Nat) < 2 ^ 29 ∧
      sendCanBytes 1 0x123 [170, 187, 204]
        = [8, 1, ((0x123 &&& 0x1FFFFFFF) >>> 24) % 256,
           ((0x123 &&& 0x1FFFFFFF) >>> 16) % 256,
           ((0x123 &&& 0x1FFFFFFF) >>> 8) % 256, (0x123 &&& 0x1FFFFFFF) % 256,
           ([170, 187, 204] : List Nat).length]
          ++ [170, 187, 204]
          ++ List.replicate (8 - ([170, 187, 204] : List Nat).length) 0
      ∧ (decodeCanRecord [1, 0, 0, 1, 35, 2, 85, 102]).1
          = ((0 <<< 24) ||| (0 <<< 16) ||| (1 <<< 8) ||| 35) &&& 0x1FFFFFFF := by
  obtain ⟨h1, h2, h3⟩ :=
    sendCan_frame_layout 1 0x123 [170, 187, 204] (by decide) (by decide)
  exact ⟨by decide, by decide, h1, h3 1 0 0 1 35 2 [85, 102]⟩

/-- For a non-negative channel, the Python truthiness of
`select & (1 << i)` is bit `i` of the channel. -/
lemma pySelectBit_natCast (k i : Nat) : pySelectBit (k : Int) i = k.testBit i := by
  show pySelectBit (Int.ofNat k) i = k.testBit i
  simp only [pySelectBit]
  rw [Nat.one_shiftLeft, Nat.and_two_pow]
  cases h : k.testBit i <;> simp [h, Nat.pos_iff_ne_zero, Nat.pow_eq_zero]

/-- Claim C7: programming a mux for channel `k` issues exactly
`|select_ports|` `WRITE_GPIO` commands, the i-th being
`WRITE_GPIO(select_ports[i], bit i of k)` — the channel encoded in
binary across the select pins, LSB first, in declared pin order — and
in the `SetDo` mux path these all precede the data-pin write. -/
theorem program_mux_encoding (m : Mux) (k : Nat) (v : Bool) :
    (selectMuxCommands m (k : Int)).length = m.select_ports.length
    ∧ (∀ i, (selectMuxCommands m (k : Int)).get? i
        = (m.select_ports.get? i).map fun p => [1, p, if k.testBit i then 1 else 0])
    ∧ muxSetDoTrace m (k : Int) v
        = selectMuxCommands m (k : Int) ++ [[1, m.port, if v then 1 else 0]] := by
  refine ⟨by simp [selectMuxCommands], ?_, rfl⟩
  intro i
  simp only [selectMuxCommands, List.get?_eq_getElem?, List.getElem?_map,
    List.getElem?_enum]
  cases h : m.select_ports[i]? <;>
    simp [h, writeGpioBytes, pySelectBit_natCast]

/-- Counterexample to Claim C8 as stated: for a mux `DMUX` with two
select ports, the name `DMUX_9` yields a channel although `9 ≥ 2^2`,
and `DMUX_-1` yields a (negative) channel — `select_from_name` performs
no range or sign check on the parsed suffix. -/
theorem selectFromName_no_range_check :
    (Mux.selectFromName ⟨"DMUX".data, "DO", [5, 6], 8⟩ "DMUX_9".data
        = some ⟨⟨"DMUX".data, "DO", [5, 6], 8⟩, 9⟩)
    ∧ ¬ ((9 : Int) < 2 ^ ([5, 6] : List Nat).length)
    ∧ (Mux.selectFromName ⟨"DMUX".data, "DO", [5, 6], 8⟩ "DMUX_-1".data
        = some ⟨⟨"DMUX".data, "DO", [5, 6], 8⟩, -1⟩) := by
  refine ⟨rfl, by norm_num, rfl⟩

/-- Claim C8 amended: a `MuxSelect` is produced from a port name exactly
when the name splits at its *last* underscore into a prefix equal to the
mux's name and a suffix that parses as an integer — any integer: no
check against `2^|select_pins|` and no sign check is made; and a name
that matches both a direct port and a mux channel resolves to the
direct port (the direct-port case of `do_action` is tried first). -/
theorem selectFromName_characterization (m : Mux) (nm : List Char) :
    ((∃ ms, m.selectFromName nm = some ms)
      ↔ ∃ suf n, rsplitLastUnd nm = some (m.name, suf) ∧ pyInt suf = some n)
    ∧ ∀ (dev : TestDevice) (p : Port) (v : Bool),
        dev.lookupPort nm = some p → p.mode = "DO" →
        dev.doSetDo nm v = .ok [writeGpioBytes p.port v] := by
  constructor
  · constructor
    · rintro ⟨ms, hms⟩
      unfold Mux.selectFromName at hms
      split at hms
      · exact absurd hms (by simp)
      · rename_i pre suf hsplit
        by_cases hpre : pre = m.name
        · subst hpre
          rw [if_pos rfl] at hms
          split at hms
          · rename_i n hint
            exact ⟨suf, n, hsplit, hint⟩
          · exact absurd hms (by simp)
        · rw [if_neg hpre] at hms
          exact absurd hms (by simp)
    · rintro ⟨suf, n, hsplit, hint⟩
      exact ⟨⟨m, n⟩, by simp [Mux.selectFromName, hsplit, hint]⟩
  · intro dev p v hp hmode
    unfold TestDevice.doSetDo
    rw [hp]
    cases dev.firstMuxSelect nm <;> simp [hmode]

/-- Witness for C8 (amended): a device whose port table contains
`DMUX_3` directly as a `DO` port while a mux named `DMUX` also matches;
the direct port wins, and the mux-channel existence condition holds for
`DMUX_3` on the `DMUX` mux. -/
theorem selectFromName_characterization_witness :
    ((∃ ms, Mux.selectFromName ⟨"DMUX".data, "DO", [5, 6], 8⟩ "DMUX_3".data = some ms)
      ↔ ∃ suf n, rsplitLastUnd "DMUX_3".data = some ("DMUX".data, suf)
          ∧ pyInt suf = some n)
    ∧ TestDevice.doSetDo
        ⟨[⟨"DMUX_3".data, 2, "DO"⟩], [⟨"DMUX".data, "DO", [5, 6], 8⟩]⟩
        "DMUX_3".data true
      = .ok [writeGpioBytes 2 true] := by
  obtain ⟨h1, h2⟩ :=
    selectFromName_characterization ⟨"DMUX".data, "DO", [5, 6], 8⟩ "DMUX_3".data
  exact ⟨h1,
    h2 ⟨[⟨"DMUX_3".data, 2, "DO"⟩], [⟨"DMUX".data, "DO", [5, 6], 8⟩]⟩
      ⟨"DMUX_3".data, 2, "DO"⟩ true rfl rfl⟩

/-- Claim C2 is right about the intended behaviour but the code
diverges: at `b = 8`, `R = 1000`, `W = 0`, `o = 1000` the source's
`ohms_to_raw` returns `⌊(b² - 1)·(o - W)/R⌋ = 63`, while the claimed
(and spec-intended, see spec section 9) formula `⌊(2^b - 1)·(o - W)/R⌋`
gives `255`.  The `RangeError` condition itself matches the claim. -/
theorem pot_ohms_to_raw_bug :
    PotConfig.ohms_to_raw ⟨8, 1000, 0⟩ 1000 = .ok 63
    ∧ (⌊((2 ^ 8 - 1 : Rat) * (1000 - 0)) / 1000⌋ : Int) = 255
    ∧ (63 : Int) ≠ 255 := by
  refine ⟨?_, by norm_num, by decide⟩
  unfold PotConfig.ohms_to_raw
  norm_num

/-- Claim C10: `raw_to_v` raises `RangeError` exactly for raw values
outside `[0, 2^b - 1]` and otherwise returns
`raw / (2^b - 1) * adc_reference_v`; and since a `READ_ADC` response
carries a 16-bit raw value, a `GetAi` in mode `AI` can surface
`RangeError` when the device reports a raw value above the configured
resolution (here `b = 12` and response bytes `0xFF 0xFF`). -/
theorem adc_raw_to_v_range (cfg : AdcConfig) (raw : Int) :
    ((∃ msg, cfg.raw_to_v raw = .error (HilError.rangeError msg))
      ↔ raw < 0 ∨ raw > 2 ^ cfg.bit_resolution - 1)
    ∧ (¬ (raw < 0 ∨ raw > 2 ^ cfg.bit_resolution - 1) →
        cfg.raw_to_v raw
          = .ok (((raw : Rat) / ((2 : Rat) ^ cfg.bit_resolution - 1))
              * cfg.adc_reference_v))
    ∧ readAdcValue 255 255 = 65535
    ∧ getAiVolts ⟨12, 33 / 10, none, none⟩ 255 255
      = .error (HilError.rangeError "ADC raw value out of range") := by
  refine ⟨?_, ?_, rfl, rfl⟩
  · by_cases h : raw < 0 ∨ raw > 2 ^ cfg.bit_resolution - 1 <;>
      simp [AdcConfig.raw_to_v, h]
  · intro h
    simp [AdcConfig.raw_to_v, h]

/-- Witness for C10 at the scenario-S2 configuration `b = 12`,
`ref = 3.3 V`, raw `2048` (in range), plus the out-of-range reading. -/
theorem adc_raw_to_v_range_witness :
    ¬ ((2048 : Int) < 0 ∨ (2048 : Int) > 2 ^ (12 : Nat) - 1)
    ∧ AdcConfig.raw_to_v ⟨12, 33 / 10, none, none⟩ 2048
      = .ok ((((2048 : Int) : Rat) / ((2 : Rat) ^ (12 : Nat) - 1)) * (33 / 10))
    ∧ getAiVolts ⟨12, 33 / 10, none, none⟩ 255 255
      = .error (HilError.rangeError "ADC raw value out of range") := by
  obtain ⟨h1, h2, h3, h4⟩ := adc_raw_to_v_range ⟨12, 33 / 10, none, none⟩ 2048
  exact ⟨by decide, h2 (by decide), h4⟩

/-- Counterexample to Claim C3 as stated: with a first registered
output whose shutdown HiZ raises and a second that would succeed,
`close` propagates the error instead of swallowing it, and the second
output is never released (`close` would return `.ok [5]` if every
output got its HiZ attempt). -/
theorem close_propagates_counterexample :
    closeComponents [.error "HiZ failed", .ok 5] = .error "HiZ failed"
    ∧ (Except.error "HiZ failed" : Except String (List Nat)) ≠ .ok [5] := by
  exact ⟨rfl, by simp⟩

/-- Claim C3 amended: an error raised by one registered output's
shutdown HiZ propagates out of `close`; the outputs registered before
it are released, the ones after it are not attempted (and the registry
is not cleared).  Only when every shutdown succeeds does every
registered output get its HiZ call. -/
theorem close_error_propagation (pre : List Nat) (e : String)
    (post : List (Except String Nat)) :
    closeComponents (pre.map .ok ++ .error e :: post) = .error e
    ∧ closeComponents (pre.map .ok) = .ok pre := by
  constructor
  · induction pre with
    | nil => rfl
    | cons p ps ih => simp [closeComponents, ih, Except.map]
  · induction pre with
    | nil => rfl
    | cons p ps ih => simp [closeComponents, ih, Except.map]

/-- One successful broken-dict insert: the key was fresh and the
binding is appended. -/
lemma dictInsertBroken_ok (es : List ((String × String) × NetMapEntry))
    (k : String × String) (v : NetMapEntry)
    (es' : List ((String × String) × NetMapEntry))
    (h : dictInsertBroken es k v = .ok es') :
    es' = es ++ [(k, v)] ∧ k ∉ es.map (fun e => e.1) := by
  unfold dictInsertBroken at h
  by_cases hc : (es.map fun e => e.1).contains k
  · rw [if_pos hc] at h
    exact absurd h (by simp)
  · rw [if_neg hc] at h
    refine ⟨(Except.ok.inj h).symm, ?_⟩
    simpa using fun hx => hc hx

/-- The row loop distributes over list append, short-circuiting on the
first error. -/
lemma netMapFromRows_append (xs ys : List NetMapRow)
    (entries : List ((String × String) × NetMapEntry)) :
    netMapFromRows (xs ++ ys) entries
      = match netMapFromRows xs entries with
        | .ok m => netMapFromRows ys m
        | .error e => .error e := by
  induction xs generalizing entries with
  | nil => rfl
  | cons r xs ih =>
    rcases r with ⟨b, n, c, d⟩ | _
    · show (match dictInsertBroken entries (b, n) ⟨b, n, c, d⟩ with
          | .error e => (.error e : Except HilError (List ((String × String) × NetMapEntry)))
          | .ok entries' => netMapFromRows (xs ++ ys) entries') = _
      cases hins : dictInsertBroken entries (b, n) ⟨b, n, c, d⟩ with
      | error e => simp [netMapFromRows, hins]
      | ok entries' => simp [netMapFromRows, hins, ih]
    · rfl

/-- The row loop only ever appends fresh keys, so a successfully loaded
map has pairwise-distinct keys. -/
lemma netMapFromRows_nodup (rows : List NetMapRow) :
    ∀ entries m, (entries.map fun e => e.1).Nodup →
      netMapFromRows rows entries = .ok m → (m.map fun e => e.1).Nodup := by
  induction rows with
  | nil =>
    intro entries m hn h
    cases h
    exact hn
  | cons r rows ih =>
    intro entries m hn h
    rcases r with ⟨b, n, c, d⟩ | _
    · unfold netMapFromRows at h
      cases hins : dictInsertBroken entries (b, n) ⟨b, n, c, d⟩ with
      | error e => rw [hins] at h; exact absurd h (by simp)
      | ok entries' =>
        rw [hins] at h
        obtain ⟨rfl, hfresh⟩ := dictInsertBroken_ok entries (b, n) ⟨b, n, c, d⟩ _ hins
        refine ih _ m ?_ h
        simpa [List.nodup_append, hfresh] using hn
    · exact absurd h (by simp [netMapFromRows])

/-- Counterexample to Claim C9 as stated: a CSV with two rows sharing
the key `("Dash", "BRK")` fails, but not with `ConfigurationError`:
the duplicate dict insert invokes the broken `BoardNet.__eq__` and the
load dies with Python `AttributeError` (an `Except` result is a single
value, so this equality excludes `.error (configurationError msg)` for
every `msg`). -/
theorem netmap_duplicate_counterexample :
    NetMap.from_csv [NetMapRow.ok "Dash" "BRK" "J3" 9, NetMapRow.ok "Dash" "BRK" "J4" 2]
      = .error (HilError.pyAttributeError "BoardNet object has no attribute board") := by
  rfl

/-- Claim C9 amended: a net-map CSV containing two well-formed rows
with the same `(Board, Net)` pair fails to load, but with Python
`AttributeError` (raised by the broken `BoardNet.__eq__` during the
duplicate dict insert), not `ConfigurationError`; and a successfully
loaded net map holds exactly one entry per `(Board, Net)` key. -/
theorem netmap_from_csv_unique (rows1 rows2 : List NetMapRow)
    (b n c : String) (d : Int) (m1 : List ((String × String) × NetMapEntry))
    (h1 : NetMap.from_csv rows1 = .ok m1)
    (hdup : (m1.map fun e => e.1).contains (b, n) = true) :
    NetMap.from_csv (rows1 ++ NetMapRow.ok b n c d :: rows2)
      = .error (HilError.pyAttributeError "BoardNet object has no attribute board")
    ∧ ∀ rows m, NetMap.from_csv rows = .ok m → (m.map fun e => e.1).Nodup := by
  constructor
  · show netMapFromRows (rows1 ++ NetMapRow.ok b n c d :: rows2) [] = _
    rw [netMapFromRows_append]
    rw [show netMapFromRows rows1 [] = .ok m1 from h1]
    show (match dictInsertBroken m1 (b, n) ⟨b, n, c, d⟩ with
        | .error e => (.error e : Except HilError (List ((String × String) × NetMapEntry)))
        | .ok entries' => netMapFromRows rows2 entries') = _
    rw [show dictInsertBroken m1 (b, n) ⟨b, n, c, d⟩
        = .error (HilError.pyAttributeError "BoardNet object has no attribute board") by
      unfold dictInsertBroken
      rw [if_pos hdup]]
  · intro rows m hm
    exact netMapFromRows_nodup rows [] m (by simp) hm

/-- Witness for C9 (amended): a first `(Dash, BRK)` row loads; adding a
second row with the same key makes the load fail with
`AttributeError`; the one-row map has unique keys. -/
theorem netmap_from_csv_unique_witness :
    NetMap.from_csv [NetMapRow.ok "Dash" "BRK" "J3" 9]
      = .ok [(("Dash", "BRK"), ⟨"Dash", "BRK", "J3", 9⟩)]
    ∧ NetMap.from_csv [NetMapRow.ok "Dash" "BRK" "J3" 9, NetMapRow.ok "Dash" "BRK" "J4" 2]
      = .error (HilError.pyAttributeError "BoardNet object has no attribute board")
    ∧ (([(("Dash", "BRK"), (⟨"Dash", "BRK", "J3", 9⟩ : NetMapEntry))].map
          fun e => e.1)).Nodup := by
  obtain ⟨hA, hB⟩ :=
    netmap_from_csv_unique [NetMapRow.ok "Dash" "BRK" "J3" 9] [] "Dash" "BRK" "J4" 2
      [(("Dash", "BRK"), ⟨"Dash", "BRK", "J3", 9⟩)] rfl rfl
  exact ⟨rfl, hA, hB [NetMapRow.ok "Dash" "BRK" "J3" 9] _ rfl⟩

/-- Counterexample to Claim C1 as stated: with one managed device
`RearTester`, a configured (but empty) net map, and an empty harness,
resolving `("RearTester", "DO1")` raises the ambiguity
`ConnectionError` although exactly one of the two matches succeeds
(the direct one; the net-map match fails) — the claim demands
`HilDutCon("RearTester", "DO1")` here. -/
theorem resolve_ambiguous_counterexample :
    mapToHilDeviceCon ⟨["RearTester"], some [], []⟩ "RearTester" "DO1"
      = .error (HilError.connectionError "ambiguous")
    ∧ maybeHilConFromNet ⟨["RearTester"], some [], []⟩ "RearTester" "DO1"
      = some ⟨"RearTester", "DO1"⟩
    ∧ netPipeline ⟨["RearTester"], some [], []⟩ [] "RearTester" "DO1"
      = .error (HilError.connectionError "No net map entry found") := by
  refine ⟨?_, ?_, rfl⟩ <;> rfl

/-- Errors leaving the net-map arm of the resolver: a present
`(board, net)` key makes `get_entry` raise `AttributeError` (the broken
`BoardNet.__eq__`), an absent one raises `ConnectionError`; the arm can
never produce an entry, so the harness step is unreachable and the
pipeline never returns a connection. -/
lemma netPipeline_never_ok (cfg : Hil2Cfg)
    (nm : List ((String × String) × NetMapEntry)) (board net : String) :
    netPipeline cfg nm board net
      = if (nm.map fun e => e.1).contains (board, net)
        then .error (HilError.pyAttributeError "BoardNet object has no attribute board")
        else .error (HilError.connectionError "No net map entry found") := by
  unfold netPipeline netMapGetEntry
  cases hc : (nm.map fun e => e.1).contains (board, net) with
  | false => simp
  | true => simp

/-- Claim C1 amended: for a fixed configuration, resolving
`(board, net)` is a pure function of `(board, net)`, and it returns a
connection if and only if `board` names a managed HIL device and no net
map is configured — then it returns `HilDutCon(board, net)`.  Every
other case fails: with neither a net map nor a device match,
`ConnectionError`; with both a device match and a configured net map,
`ConnectionError("ambiguous")` regardless of whether the net-map lookup
would succeed; with only a net map, the net-map match can never
succeed — `get_entry` raises `AttributeError` (the broken
`BoardNet.__eq__`) when the `(board, net)` key is present and
`ConnectionError` when it is absent, so that path never yields a
connection. -/
theorem resolve_characterization (cfg : Hil2Cfg) (board net : String) :
    ((∃ h, mapToHilDeviceCon cfg board net = .ok h)
      ↔ maybeHilConFromNet cfg board net ≠ none ∧ cfg.netMap = none)
    ∧ (∀ h, maybeHilConFromNet cfg board net = some h → cfg.netMap = none →
        mapToHilDeviceCon cfg board net = .ok h)
    ∧ (∀ nm entry, netMapGetEntry nm board net ≠ .ok entry)
    ∧ (∀ nm, cfg.netMap = some nm → maybeHilConFromNet cfg board net = none →
        mapToHilDeviceCon cfg board net
          = if (nm.map fun e => e.1).contains (board, net)
            then .error (HilError.pyAttributeError "BoardNet object has no attribute board")
            else .error (HilError.connectionError "No net map entry found"))
    ∧ (maybeHilConFromNet cfg board net ≠ none → cfg.netMap ≠ none →
        mapToHilDeviceCon cfg board net = .error (HilError.connectionError "ambiguous")) := by
  refine ⟨?_, ?_, ?_, ?_, ?_⟩
  · rcases hnm : cfg.netMap with _ | nm <;>
      rcases hmd : maybeHilConFromNet cfg board net with _ | hcon <;>
      simp [mapToHilDeviceCon, hnm, hmd, netPipeline_never_ok]
    cases hc : (nm.map fun e => e.1).contains (board, net) with
    | false => simp
    | true => simp
  · intro h hh hnone
    simp [mapToHilDeviceCon, hnone, hh]
  · intro nm entry
    unfold netMapGetEntry
    cases hc : (nm.map fun e => e.1).contains (board, net) with
    | false => simp
    | true => simp
  · intro nm hnm hmd
    rw [show mapToHilDeviceCon cfg board net = netPipeline cfg nm board net by
      simp [mapToHilDeviceCon, hnm, hmd]]
    exact netPipeline_never_ok cfg nm board net
  · intro hcon hnm
    rcases hx : cfg.netMap with _ | nm
    · exact absurd hx hnm
    · rcases hy : maybeHilConFromNet cfg board net with _ | h
      · exact absurd hy hcon
      · simp [mapToHilDeviceCon, hx, hy]

/-- Witness for C1 (amended): one managed device `RT` with no net map
resolves directly; the same device with a (here empty) net map
configured fails with the ambiguity error. -/
theorem resolve_characterization_witness :
    maybeHilConFromNet ⟨["RT"], none, []⟩ "RT" "DO1" = some ⟨"RT", "DO1"⟩
    ∧ mapToHilDeviceCon ⟨["RT"], none, []⟩ "RT" "DO1" = .ok ⟨"RT", "DO1"⟩
    ∧ mapToHilDeviceCon ⟨["RT"], some [], []⟩ "RT" "DO1"
      = .error (HilError.connectionError "ambiguous") := by
  obtain ⟨h1, h2, h3, h4, h5⟩ := resolve_characterization ⟨["RT"], none, []⟩ "RT" "DO1"
  obtain ⟨g1, g2, g3, g4, g5⟩ := resolve_characterization ⟨["RT"], some [], []⟩ "RT" "DO1"
  exact ⟨rfl, h2 ⟨"RT", "DO1"⟩ rfl rfl, g5 (by decide) (by simp)⟩

end Hil2
